import Mathlib

/-!
Verification of the `_scraper` crate (are-we-learning-yet): a shallow
embedding of `src/data.rs`, `src/github.rs` and `src/main.rs`, followed by
theorems settling the specification claims.

Modelling conventions:
* Timestamps (`chrono::DateTime<Utc>` and naive local datetimes) are modelled
  as integers counting seconds; `Duration::num_days()` is integer division by
  86400 truncating toward zero (`Int.tdiv`), as in chrono/Rust.
* Machine integers `u32`/`u64` are modelled as `Nat` (they are only carried,
  never wrapped); the saturating `as u64` cast of a nonnegative float clamps
  at `2 ^ 64 - 1`.
* `f32` values are modelled exactly as dyadic rationals `m * 2 ^ e` (`Dy`);
  every finite `f32` is of this form.  `dyRound32` is IEEE-754 binary32
  round-to-nearest, ties-to-even, on the significand (the values arising in
  this program are far from overflow and subnormal range).  An IEEE `f32`
  multiplication is the correctly rounded exact product, `u64 as f32` is the
  correctly rounded integer, and the literal `0.1_f32` is the binary32 value
  13421773 * 2 ^ (-27).
* Network, filesystem and URL-parsing collaborators are oracle parameters:
  a fetch is a function from the request to its (error or success) result.
-/

/-! ## Dyadic model of IEEE-754 binary32 arithmetic -/

/-- Fuel-based floor of the base-2 logarithm: `natLog2F fuel n` is
`⌊log₂ n⌋` whenever `0 < n < 2 ^ fuel` (and the fuel used below, 128, covers
every number occurring in the program). -/
def natLog2F : Nat → Nat → Nat
  | 0, _ => 0
  | fuel+1, n => if n < 2 then 0 else natLog2F fuel (n / 2) + 1

/-- A dyadic rational `m * 2 ^ e`: the exact value of a finite binary32
floating-point number. -/
structure Dy where
  m : Int
  e : Int
deriving DecidableEq

/-- Exact product of two dyadic rationals. -/
def Dy.mul (a b : Dy) : Dy := ⟨a.m * b.m, a.e + b.e⟩

/-- Round a nonnegative dyadic rational to 24 significant bits —
round-to-nearest, ties-to-even: the IEEE-754 binary32 rounding applied to
every arithmetic result.  Nonpositive significands (only 0 occurs in this
program) map to 0. -/
def dyRound32 (x : Dy) : Dy :=
  if x.m ≤ 0 then ⟨0, 0⟩
  else
    let L := natLog2F 128 x.m.toNat
    if L ≤ 23 then x
    else
      let k := L - 23
      let q := x.m / 2 ^ k
      let r := x.m % 2 ^ k
      let half : Int := 2 ^ (k - 1)
      let mq := if r < half then q else if half < r then q + 1 else
        if q % 2 = 0 then q else q + 1
      ⟨mq, x.e + k⟩

/-- The exact integer `f32::floor` of a dyadic value (for the nonnegative
values occurring here, `Int.fdiv` is the mathematical floor). -/
def Dy.floorVal (x : Dy) : Int :=
  if 0 ≤ x.e then x.m * 2 ^ x.e.toNat else Int.fdiv x.m (2 ^ (-x.e).toNat)

/-- The literal `0.1_f32` of `data.rs`: the binary32 value nearest to 1/10,
namely 13421773 * 2 ^ (-27). -/
def coef01 : Dy := ⟨13421773, -27⟩

/-! ## Data model (`data.rs`, `crates_io_api`, `github.rs`) -/

/-- Topic tags.  `data.rs` declares a closed serde enum, while `main.rs`
(category expansion) stores category-label strings in the same field; the
two source files are from slightly different revisions.  The topic payload
is never inspected by any logic under verification, so topics are modelled
as strings. -/
def Topic := String
deriving DecidableEq

/-- `crates_io_api::CrateLinks` (only ever constructed with placeholder
values by `main.rs`). -/
structure CrateLinks where
  owner_team : String
  owner_user : String
  owners : String
  reverse_dependencies : String
  version_downloads : String
  versions : Option String
deriving DecidableEq

/-- `crates_io_api::Crate`: the registry package-metadata record.  Version
lists are opaque to this program and modelled as string lists. -/
structure Crate where
  id : String
  name : String
  description : Option String
  license : Option String
  documentation : Option String
  homepage : Option String
  repository : Option String
  downloads : Nat
  recent_downloads : Option Nat
  categories : Option (List String)
  keywords : Option (List String)
  versions : Option (List String)
  max_version : String
  links : CrateLinks
  created_at : Int
  updated_at : Int
  exact_match : Option Bool
deriving DecidableEq

/-- `github.rs::RepoData`. -/
structure RepoData where
  name : String
  stargazers_count : Nat
  last_commit : Int
  contributor_count : Option Nat
  open_issues_count : Option Nat
deriving DecidableEq

/-- A parsed `url::Url`, carrying its serialization (`to_string`) and the
two components this program reads (`host_str`, `path`).  The path is kept
as a character list so that the `split` of `main.rs` can be modelled
exactly. -/
structure Url where
  raw : String
  host : Option String
  path : List Char
deriving DecidableEq

/-- `Url::to_string`. -/
def Url.toStr (u : Url) : String := u.raw

/-- `data.rs::ManualCrateInfo`. -/
structure ManualCrateInfo where
  topics : List Topic
  score : Option Nat
  krate : Option Crate
  repo : Option RepoData
deriving DecidableEq

/-- `data.rs::CratesIoInputCrateInfo`. -/
structure CratesIoInputCrateInfo where
  name : Option String
  topics : List Topic
  documentation : Option String
  repository : Option Url
  license : Option String
  description : Option String
deriving DecidableEq

/-- `data.rs::InputCrateInfo`.  The `category` variant is the one matched by
`main.rs` (`InputCrateInfo::Category(c)` with a `name` field); it is absent
from the `data.rs` revision under `src/` but required by the driver. -/
inductive InputCrateInfo where
  | cratesIo (c : CratesIoInputCrateInfo)
  | manual (m : ManualCrateInfo)
  | category (name : String)
deriving DecidableEq

/-- `data.rs::GeneratedCrateInfo`. -/
structure GeneratedCrateInfo where
  topics : List Topic
  score : Option Nat
  krate : Option Crate
  repo : Option RepoData
deriving DecidableEq

/-! ## Merge Engine (`data.rs`) -/

/-- `GeneratedCrateInfo::fill_manually`. -/
def fill_manually (krate : ManualCrateInfo) : GeneratedCrateInfo :=
  { topics := krate.topics
    score := none
    repo := krate.repo
    krate := krate.krate }

/-- `GeneratedCrateInfo::from_crates_io`.  The registry client
(`CratesIo::get_crate_data`) is the oracle `fetch`; client construction
(`CratesIo::new`), which can only fail before any fetch, is assumed to
succeed.  A fetch error is logged and leaves the package metadata absent. -/
def from_crates_io (fetch : String → Except String Crate)
    (krate : CratesIoInputCrateInfo) : GeneratedCrateInfo :=
  let this : GeneratedCrateInfo :=
    { topics := krate.topics, score := none, krate := none, repo := none }
  match krate.name with
  | none => this
  | some crate_name =>
    match fetch crate_name with
    | Except.error _ => this
    | Except.ok data0 =>
      let data1 := { data0 with license := data0.license.or krate.license }
      let data2 :=
        { data1 with documentation := data1.documentation.or krate.documentation }
      let data3 :=
        if data2.documentation.isNone then
          { data2 with documentation := some ("https://docs.rs/crate/" ++ data2.name) }
        else data2
      let data4 :=
        { data3 with repository := data3.repository.or (krate.repository.map Url.toStr) }
      let data5 := { data4 with description := data4.description.or krate.description }
      { this with krate := some data5 }

/-- `GeneratedCrateInfo::try_from`.  The driver partitions `Category`
inputs out before ever calling it, so that case is unreachable; it is
modelled as `none` (the driver model treats it as a run failure). -/
def tryFrom (fetch : String → Except String Crate) :
    InputCrateInfo → Option GeneratedCrateInfo
  | InputCrateInfo.cratesIo c => some (from_crates_io fetch c)
  | InputCrateInfo.manual m => some (fill_manually m)
  | InputCrateInfo.category _ => none

/-! ## Score Calculator (`data.rs`) -/

/-- `GeneratedCrateInfo::last_activity`. -/
def last_activity (e : GeneratedCrateInfo) : Option Int :=
  let la := e.krate.map fun k => k.updated_at
  match e.repo.map fun r => r.last_commit with
  | none => la
  | some last_commit =>
    match la with
    | none => some last_commit
    | some t => if t < last_commit then some last_commit else some t

/-- The coefficient match of `update_score`: `now` is `Utc::now()`,
`(now - t).num_days()` is truncating division by 86400 seconds.  `1.0` and
`0.5` are exactly representable in binary32; `0.1` is `coef01`. -/
def coefficientFor (now : Int) (la : Option Int) : Dy :=
  match la with
  | none => coef01
  | some t =>
    let inactive_days := Int.tdiv (now - t) 86400
    if inactive_days ≤ 180 then ⟨1, 0⟩
    else if inactive_days ≤ 365 then ⟨1, -1⟩
    else coef01

/-- `GeneratedCrateInfo::update_score`.  As in the source, the score is
first set to 0 when no package metadata is present, and then
unconditionally overwritten by
`f32::floor(coefficient * recent_downloads as f32) as u64`
(`as u64` saturates at `2 ^ 64 - 1`; the value is never negative or NaN
here). -/
def update_score (now : Int) (e : GeneratedCrateInfo) : GeneratedCrateInfo :=
  let e1 := if e.krate.isNone then { e with score := some 0 } else e
  let coefficient := coefficientFor now (last_activity e1)
  let recent_downloads : Nat := (e1.krate.bind fun k => k.recent_downloads).getD 0
  { e1 with
    score := some (min
      (dyRound32 (coefficient.mul (dyRound32 ⟨(recent_downloads : Int), 0⟩))).floorVal.toNat
      (2 ^ 64 - 1)) }

/-! ## Repo Metadata Fetcher (`github.rs`) -/

/-- A `serde_json::Value`-like JSON tree.  Numbers are modelled as integers
(the fields this program decodes are counts). -/
inductive Json where
  | null
  | bool (b : Bool)
  | num (n : Int)
  | str (s : String)
  | arr (elems : List Json)
  | obj (fields : List (String × Json))

/-- `serde_json` immutable field indexing (`val["k"]`): missing fields and
non-objects yield `null`, never a panic. -/
def Json.get : Json → String → Json
  | Json.obj fields, k =>
    match fields.find? fun kv => kv.1 == k with
    | some kv => kv.2
    | none => Json.null
  | _, _ => Json.null

/-- `serde_json::from_value::<u32>`. -/
def decodeU32 (j : Json) : Except String Nat :=
  match j with
  | Json.num n => if 0 ≤ n ∧ n < 4294967296 then Except.ok n.toNat else Except.error "invalid u32"
  | _ => Except.error "invalid u32"

/-- `serde_json::from_value::<Option<u32>>`: `null` decodes to `None`. -/
def decodeOptU32 (j : Json) : Except String (Option Nat) :=
  match j with
  | Json.null => Except.ok none
  | j => (decodeU32 j).map some

/-- `serde_json::from_value::<DateTime<Utc>>`: a string parsed by the
datetime parser `pd` (an oracle), anything else an error. -/
def decodeDate (pd : String → Option Int) (j : Json) : Except String Int :=
  match j with
  | Json.str s =>
    match pd s with
    | some t => Except.ok t
    | none => Except.error "invalid datetime"
  | _ => Except.error "invalid datetime"

/-- `github.rs::GraphqlError`. -/
structure GraphqlError where
  path : Option (List String)
  message : Option String

/-- `github.rs::GraphqlResponse` (untagged union of the provider error-list
shape and a plain value). -/
inductive GraphqlResponse where
  | Error (errors : List GraphqlError)
  | Value (v : Json)

/-- The outcome of running fallible Rust code: success, a returned error, or
a panic (from `[0]` indexing or `.unwrap()`). -/
inductive Outcome (α : Type) where
  | ok (a : α)
  | err (msg : String)
  | panic

/-- `RepoData::from_graphql_data`: each field decoded with `?`, so a failure
propagates as an error. -/
def from_graphql_data (pd : String → Option Int) (name : String) (val : Json) :
    Except String RepoData := do
  let repo := (val.get "data").get "repository"
  let stargazers_count ← decodeU32 ((repo.get "stargazers").get "totalCount")
  let last_commit ← decodeDate pd (repo.get "pushedAt")
  let contributor_count ← decodeOptU32 ((repo.get "collaborators").get "totalCount")
  let open_issues_count ← decodeOptU32 ((repo.get "issues").get "totalCount")
  Except.ok
    { name := name
      stargazers_count := stargazers_count
      last_commit := last_commit
      contributor_count := contributor_count
      open_issues_count := open_issues_count }

/-- `Github::fetch_remote_repo_data`, from the transport result of the
GraphQL call onward: a transport error propagates via `?`; a provider error
list is handled by `errors[0].message.as_ref().unwrap()`, which panics on an
empty list or an absent first message. -/
def fetch_remote_repo_data (transport : Except String GraphqlResponse) : Outcome Json :=
  match transport with
  | Except.error e => Outcome.err e
  | Except.ok (GraphqlResponse.Error errors) =>
    match errors with
    | [] => Outcome.panic
    | e :: _ =>
      match e.message with
      | none => Outcome.panic
      | some m => Outcome.err m
  | Except.ok (GraphqlResponse.Value v) => Outcome.ok v

/-- Modelled from the spec: the cause of a failed cache read.  `util.rs`
(`read_cache`) is not under `src/`; spec section 4.1 states that a cache
miss and a cache deserialization failure are both read failures, treated
identically. -/
inductive CacheFailCause where
  | miss
  | deserFail

/-- Modelled from the spec: the result of `util.rs::read_cache` — a hit
carrying the cached raw JSON blob, or a failure with its cause. -/
inductive CacheRead where
  | hit (data : Json)
  | missOrFail (c : CacheFailCause)

/-- Lift an `Except` result (code using only `?`) into an `Outcome`. -/
def liftE {α : Type} : Except String α → Outcome α
  | Except.ok a => Outcome.ok a
  | Except.error e => Outcome.err e

/-- `Github::get_repo_data`: on a cache read failure fall through to a live
fetch, then best-effort write the blob back (`let _ = write_cache(...)`, the
result `writeRes` is discarded), and finally parse. -/
def get_repo_data (pd : String → Option Int) (cread : CacheRead)
    (transport : Except String GraphqlResponse) (writeRes : Except String Unit)
    (username repo : String) : Outcome RepoData :=
  match cread with
  | CacheRead.hit data => liftE (from_graphql_data pd (username ++ "/" ++ repo) data)
  | CacheRead.missOrFail _ =>
    match fetch_remote_repo_data transport with
    | Outcome.ok data =>
      let _ := writeRes
      liftE (from_graphql_data pd (username ++ "/" ++ repo) data)
    | Outcome.err e => Outcome.err e
    | Outcome.panic => Outcome.panic

/-! ## Pipeline Driver (`main.rs`) -/

/-- Rust `str::split(&['/', '.'][..])`: split on every occurrence of either
delimiter, keeping empty pieces. -/
def splitDelim (delims : List Char) : List Char → List (List Char)
  | [] => [[]]
  | c :: rest =>
    if c ∈ delims then [] :: splitDelim delims rest
    else
      match splitDelim delims rest with
      | [] => [[c]]
      | s :: ss => (c :: s) :: ss

/-- Lines 69-72 of `main.rs`: the host filter and owner/repo extraction.
`Except.error` is the `ensure!(parts.len() >= 3)` failure (fatal for the
run); `Except.ok none` means the host is not github.com, so no repo fetch
is attempted. -/
def resolveRepo (u : Url) : Except Unit (Option (List Char × List Char)) :=
  if u.host = some "github.com" then
    let parts := splitDelim ['/', '.'] u.path
    if 3 ≤ parts.length then Except.ok (some (parts.getD 1 [], parts.getD 2 []))
    else Except.error ()
  else Except.ok none

/-- Lines 63-83 of `main.rs`: re-parse the merged repository URL (`parse`
models `Url::parse`, whose `.unwrap()` panic aborts the run), filter by
host, and attach the repo fetch result; a fetch error is logged and the
entry proceeds without repo metadata. -/
def attachRepo (parse : String → Option Url)
    (fetchRepo : List Char → List Char → Except String RepoData)
    (gen : GeneratedCrateInfo) : Except Unit GeneratedCrateInfo :=
  match gen.krate.bind fun k => k.repository with
  | none => Except.ok gen
  | some r =>
    match parse r with
    | none => Except.error ()
    | some u =>
      match resolveRepo u with
      | Except.error _ => Except.error ()
      | Except.ok none => Except.ok gen
      | Except.ok (some (owner, repo)) =>
        match fetchRepo owner repo with
        | Except.ok data => Except.ok { gen with repo := some data }
        | Except.error _ => Except.ok gen

/-- One iteration of the driver loop (lines 55-86 of `main.rs`): merge,
resolve/attach repo metadata, then compute the score. -/
def processCrate (fetchCrate : String → Except String Crate)
    (parse : String → Option Url)
    (fetchRepo : List Char → List Char → Except String RepoData)
    (now : Int) (input : InputCrateInfo) : Except Unit GeneratedCrateInfo :=
  match tryFrom fetchCrate input with
  | none => Except.error ()
  | some gen =>
    match attachRepo parse fetchRepo gen with
    | Except.error e => Except.error e
    | Except.ok gen2 => Except.ok (update_score now gen2)

/-- The driver's `for` loop with `?`: stop at the first fatal error,
otherwise collect the entries in order. -/
def processAll {α β : Type} (f : α → Except Unit β) : List α → Except Unit (List β)
  | [] => Except.ok []
  | x :: xs =>
    match f x with
    | Except.error e => Except.error e
    | Except.ok y =>
      match processAll f xs with
      | Except.error e => Except.error e
      | Except.ok ys => Except.ok (y :: ys)

/-- A `db_dump::crates::Row` as consumed by the category expansion of
`main.rs` (fields per spec section 6; naive local timestamps). -/
structure CrateRow where
  id : Nat
  name : String
  description : String
  documentation : Option String
  homepage : Option String
  repository : Option String
  downloads : Nat
  created_at : Int
  updated_at : Int
deriving DecidableEq

/-- Lines 166-203 of `main.rs`: the `ManualCrateInfo` synthesized by the
Category Index Builder for one snapshot row.  `cats` is the row's full
category-label list; `lutc` models the London-local-to-UTC timestamp
conversion.  `recent_downloads` is always `None`. -/
def mkManualFromRow (lutc : Int → Int) (row : CrateRow) (cats : List String) :
    ManualCrateInfo :=
  { topics := cats
    krate := some
      { id := toString row.id
        name := row.name
        description := some row.description
        license := none
        documentation := row.documentation
        homepage := row.homepage
        repository := row.repository
        downloads := row.downloads
        recent_downloads := none
        categories := some cats
        keywords := none
        versions := none
        max_version := "unknown"
        links :=
          { owner_team := "unknown"
            owner_user := "unknown"
            owners := "unknown"
            reverse_dependencies := "unknown"
            version_downloads := "unknown"
            versions := none }
        created_at := lutc row.created_at
        updated_at := lutc row.updated_at
        exact_match := none }
    score := none
    repo := none }

/-- Is this input a category request?  (The driver partitions these out
before the per-package loop.) -/
def isCategory : InputCrateInfo → Bool
  | InputCrateInfo.category _ => true
  | _ => false

/-- The driver (`main`) from parsed input to the generated list: process
every non-category entry through merge → repo attach → score, then process
every category-discovered row (already paired with its category labels)
through `try_from` (manual path) → score, and append.  All I/O collaborators
are oracles. -/
def runMain (fetchCrate : String → Except String Crate)
    (parse : String → Option Url)
    (fetchRepo : List Char → List Char → Except String RepoData)
    (lutc : Int → Int) (now : Int)
    (inputs : List InputCrateInfo) (catData : List (CrateRow × List String)) :
    Except Unit (List GeneratedCrateInfo) :=
  let entries := (inputs.partition fun i => isCategory i).2
  match processAll (processCrate fetchCrate parse fetchRepo now) entries with
  | Except.error e => Except.error e
  | Except.ok userGens =>
    let catGens := catData.map fun rc =>
      update_score now (fill_manually (mkManualFromRow lutc rc.1 rc.2))
    Except.ok (userGens ++ catGens)

/-! ## Helper lemmas -/

theorem natLog2F_lt (fuel n k : Nat) (hk : 0 < k) (h : n < 2 ^ k) :
    natLog2F fuel n < k := by
  induction fuel generalizing n k with
  | zero => simpa [natLog2F] using hk
  | succ fuel ih =>
    by_cases h2 : n < 2
    · simpa [natLog2F, h2] using hk
    · have hn2 : 2 ≤ n := Nat.not_lt.mp h2
      have hk2 : 2 ≤ k := by
        by_contra hcon
        have hk1 : k = 1 := by omega
        subst hk1
        simp at h
        omega
      have h2k : 2 ^ k = 2 * 2 ^ (k - 1) := by
        cases k with
        | zero => omega
        | succ k0 => simp [Nat.pow_succ]; ring
      have hdiv : n / 2 < 2 ^ (k - 1) := by
        have := (Nat.div_lt_iff_lt_mul (show 0 < 2 by norm_num)).mpr
          (show n < 2 ^ (k - 1) * 2 by omega)
        exact this
      have hrec := ih (n / 2) (k - 1) (by omega) hdiv
      simp only [natLog2F, if_neg (show ¬ n < 2 by omega)]
      omega

theorem dyRound32_exact (m e : Int) (h0 : 0 < m) (h24 : m < 2 ^ 24) :
    dyRound32 ⟨m, e⟩ = ⟨m, e⟩ := by
  have hm : ¬ (m ≤ 0) := by omega
  have hpow : (2 : Int) ^ 24 = 16777216 := by norm_num
  have htn : m.toNat < 2 ^ 24 := by
    have : m.toNat < 16777216 := by omega
    omega
  have hlog : natLog2F 128 m.toNat < 24 := natLog2F_lt 128 m.toNat 24 (by norm_num) htn
  simp only [dyRound32, hm, if_false]
  rw [if_pos (by omega)]

theorem zero_prod (c : Dy) : (dyRound32 (Dy.mul c (dyRound32 ⟨0, 0⟩))).floorVal = 0 := by
  simp [dyRound32, Dy.mul, Dy.floorVal]

theorem update_score_no_recent (now : Int) (e : GeneratedCrateInfo) (k : Crate)
    (hk : e.krate = some k) (hd : k.recent_downloads = none) :
    (update_score now e).score = some 0 := by
  simp [update_score, hk, hd, zero_prod]

theorem update_score_isSome (now : Int) (e : GeneratedCrateInfo) :
    (update_score now e).score.isSome = true := rfl

theorem processAll_mem {α β : Type} (f : α → Except Unit β) (l : List α)
    (res : List β) (h : processAll f l = Except.ok res) :
    ∀ b ∈ res, ∃ a, f a = Except.ok b := by
  induction l generalizing res with
  | nil =>
    intro b hb
    simp [processAll] at h
    subst h
    simp at hb
  | cons x xs ih =>
    intro b hb
    cases hfx : f x with
    | error e => simp [processAll, hfx] at h
    | ok y =>
      cases hrec : processAll f xs with
      | error e => simp [processAll, hfx, hrec] at h
      | ok ys =>
        simp [processAll, hfx, hrec] at h
        subst h
        rcases List.mem_cons.mp hb with hby | hbys
        · exact ⟨x, by rw [hfx, hby]⟩
        · exact ih ys hrec b hbys

theorem splitDelim_ne_nil (d l : List Char) : splitDelim d l ≠ [] := by
  cases l with
  | nil => simp [splitDelim]
  | cons c rest =>
    simp only [splitDelim]
    split
    · simp
    · split <;> simp

theorem splitDelim_append (d l rest : List Char) (h : ∀ c ∈ l, c ∉ d) :
    splitDelim d (l ++ rest) = (splitDelim d rest).modifyHead fun s => l ++ s := by
  induction l with
  | nil =>
    cases hs : splitDelim d rest with
    | nil => exact absurd hs (splitDelim_ne_nil d rest)
    | cons s ss => simp [hs, List.modifyHead]
  | cons c l2 ih =>
    have hc : c ∉ d := h c (List.mem_cons_self c l2)
    have h2 : ∀ x ∈ l2, x ∉ d := fun x hx => h x (List.mem_cons_of_mem _ hx)
    simp only [List.cons_append, splitDelim, if_neg hc]
    have ih2 : splitDelim d (l2.append rest)
        = List.modifyHead (fun s => l2 ++ s) (splitDelim d rest) := ih h2
    rw [ih2]
    cases hs : splitDelim d rest with
    | nil => exact absurd hs (splitDelim_ne_nil d rest)
    | cons s ss => simp [List.modifyHead]

theorem splitDelim_nodelim (d l : List Char) (h : ∀ c ∈ l, c ∉ d) :
    splitDelim d l = [l] := by
  have := splitDelim_append d l [] h
  simpa [splitDelim, List.modifyHead] using this

theorem split_git (owner repo : List Char)
    (ho : ∀ c ∈ owner, c ∉ ['/', '.']) (hr : ∀ c ∈ repo, c ∉ ['/', '.']) :
    splitDelim ['/', '.'] ('/' :: (owner ++ '/' :: (repo ++ ['.', 'g', 'i', 't'])))
      = [[], owner, repo, ['g', 'i', 't']] := by
  have hslash : ∀ X, splitDelim ['/', '.'] ('/' :: X) = [] :: splitDelim ['/', '.'] X := by
    intro X; simp [splitDelim]
  have hdot : ∀ X, splitDelim ['/', '.'] ('.' :: X) = [] :: splitDelim ['/', '.'] X := by
    intro X; simp [splitDelim]
  have hgits : splitDelim ['/', '.'] ['g', 'i', 't'] = [['g', 'i', 't']] :=
    splitDelim_nodelim _ _ (by decide)
  rw [hslash, splitDelim_append _ _ _ ho, hslash, splitDelim_append _ _ _ hr,
    show (['.', 'g', 'i', 't'] : List Char) = '.' :: ['g', 'i', 't'] from rfl,
    hdot, hgits]
  simp [List.modifyHead]

theorem split_nogit (owner repo : List Char)
    (ho : ∀ c ∈ owner, c ∉ ['/', '.']) (hr : ∀ c ∈ repo, c ∉ ['/', '.']) :
    splitDelim ['/', '.'] ('/' :: (owner ++ '/' :: repo)) = [[], owner, repo] := by
  have hslash : ∀ X, splitDelim ['/', '.'] ('/' :: X) = [] :: splitDelim ['/', '.'] X := by
    intro X; simp [splitDelim]
  rw [hslash, splitDelim_append _ _ _ ho, hslash, splitDelim_nodelim _ _ hr]
  simp [List.modifyHead]

/-! ## Concrete sample values for witnesses and counterexamples -/

/-- A baseline package-metadata record used to build concrete test values. -/
def sampleCrate : Crate :=
  { id := "c1"
    name := "foo"
    description := none
    license := none
    documentation := none
    homepage := none
    repository := none
    downloads := 0
    recent_downloads := none
    categories := none
    keywords := none
    versions := none
    max_version := "1.0.0"
    links :=
      { owner_team := "unknown"
        owner_user := "unknown"
        owners := "unknown"
        reverse_dependencies := "unknown"
        version_downloads := "unknown"
        versions := none }
    created_at := 0
    updated_at := 0
    exact_match := none }

/-- A concrete repo-metadata record. -/
def sampleRepo : RepoData :=
  { name := "o/r"
    stargazers_count := 3
    last_commit := 86400
    contributor_count := none
    open_issues_count := some 2 }

/-! ## Claim C3 -/

/-- Claim C3 (amended): for a ManualSourced input the merge passes topics,
package metadata and repo metadata through unchanged and performs no
fetching (the result is independent of the registry fetcher), but the score
is set to absent — a pre-supplied input score is discarded, not passed
through. -/
theorem claim_C3 (m : ManualCrateInfo) (f1 f2 : String → Except String Crate) :
    tryFrom f1 (InputCrateInfo.manual m) = tryFrom f2 (InputCrateInfo.manual m) ∧
    tryFrom f1 (InputCrateInfo.manual m)
      = some { topics := m.topics, score := none, krate := m.krate, repo := m.repo } :=
  ⟨rfl, rfl⟩

/-- Claim C3 counterexample: a ManualSourced input with a pre-supplied score
of 5 does not keep that score in the merged entry (`fill_manually` sets the
score to `None`). -/
theorem claim_C3_counterexample :
    ¬ (fill_manually
        { topics := [], score := some 5, krate := none, repo := none }).score = some 5 := by
  decide

/-! ## Claim C4 -/

/-- Claim C4: for every merged entry with no package metadata, the score
after `update_score` is 0, whether or not repo metadata is present —
the initial `Some(0)` is overwritten by the general formula, whose
recent-downloads term defaults to 0. -/
theorem claim_C4 (now : Int) (e : GeneratedCrateInfo) (h : e.krate = none) :
    (update_score now e).score = some 0 := by
  simp [update_score, h, zero_prod]

/-- Claim C4 witness: concrete entries without package metadata, one with
repo metadata and one without, both score 0. -/
theorem claim_C4_witness :
    (update_score 0 ⟨[], none, none, some sampleRepo⟩).score = some 0 ∧
    (update_score 0 ⟨[], none, none, none⟩).score = some 0 :=
  ⟨claim_C4 0 ⟨[], none, none, some sampleRepo⟩ rfl, claim_C4 0 ⟨[], none, none, none⟩ rfl⟩

/-! ## Claim C9 -/

/-- Claim C9: every entry synthesized by the category expansion (which
always sets recent-downloads to absent) ends with score 0 after the manual
merge path and `update_score`, for every timestamp conversion, clock value,
snapshot row and category-label list. -/
theorem claim_C9 (lutc : Int → Int) (now : Int) (row : CrateRow) (cats : List String) :
    (update_score now (fill_manually (mkManualFromRow lutc row cats))).score = some 0 :=
  update_score_no_recent now _ _ rfl rfl

/-! ## Claim C6 -/

/-- Claim C6 (amended): the fetcher propagates a transport error; a
provider-reported error list whose first element carries a message yields an
error with that first message; a plain value is returned intact; and a
missing/malformed field makes `from_graphql_data` fail with a propagated
error.  However "never panics" does not hold in general: an empty error
list, or an absent first message, panics (see the counterexample). -/
theorem claim_C6 :
    (∀ t, fetch_remote_repo_data (Except.error t) = Outcome.err t) ∧
    (∀ e rest m, e.message = some m →
      fetch_remote_repo_data (Except.ok (GraphqlResponse.Error (e :: rest)))
        = Outcome.err m) ∧
    (∀ v, fetch_remote_repo_data (Except.ok (GraphqlResponse.Value v)) = Outcome.ok v) ∧
    (∀ pd name val msg,
      decodeU32 ((((val.get "data").get "repository").get "stargazers").get "totalCount")
        = Except.error msg →
      from_graphql_data pd name val = Except.error msg) := by
  refine ⟨fun t => rfl, ?_, fun v => rfl, ?_⟩
  · intro e rest m hm
    simp [fetch_remote_repo_data, hm]
  · intro pd name val msg h
    unfold from_graphql_data
    simp only [h]
    rfl

/-- Claim C6 counterexample: an empty provider error list makes the fetcher
panic (`errors[0]` out-of-bounds indexing), so it does not return an error
on every response. -/
theorem claim_C6_counterexample :
    fetch_remote_repo_data (Except.ok (GraphqlResponse.Error [])) = Outcome.panic := rfl

/-- Claim C6 witness: concrete instances of each amended conjunct. -/
theorem claim_C6_witness :
    fetch_remote_repo_data (Except.error "transport down") = Outcome.err "transport down" ∧
    fetch_remote_repo_data
      (Except.ok (GraphqlResponse.Error [⟨none, some "NOT_FOUND"⟩])) = Outcome.err "NOT_FOUND" ∧
    fetch_remote_repo_data (Except.ok (GraphqlResponse.Value Json.null)) = Outcome.ok Json.null ∧
    from_graphql_data (fun _ => none) "o/r" Json.null = Except.error "invalid u32" :=
  ⟨claim_C6.1 "transport down",
   claim_C6.2.1 ⟨none, some "NOT_FOUND"⟩ [] "NOT_FOUND" rfl,
   claim_C6.2.2.1 Json.null,
   claim_C6.2.2.2 (fun _ => none) "o/r" Json.null "invalid u32" rfl⟩

/-! ## Claim C7 -/

/-- Claim C7: a cache hit parses the cached blob and never consults the
remote fetch; a miss and a deserialization failure behave identically,
falling through to the live fetch and then parsing its value; and the
cache-write result never changes what the lookup returns. -/
theorem claim_C7 :
    (∀ pd data t1 t2 w u r,
      get_repo_data pd (CacheRead.hit data) t1 w u r
        = get_repo_data pd (CacheRead.hit data) t2 w u r ∧
      get_repo_data pd (CacheRead.hit data) t1 w u r
        = liftE (from_graphql_data pd (u ++ "/" ++ r) data)) ∧
    (∀ pd t w u r,
      get_repo_data pd (CacheRead.missOrFail CacheFailCause.miss) t w u r
        = get_repo_data pd (CacheRead.missOrFail CacheFailCause.deserFail) t w u r) ∧
    (∀ pd c v w u r,
      get_repo_data pd (CacheRead.missOrFail c) (Except.ok (GraphqlResponse.Value v)) w u r
        = liftE (from_graphql_data pd (u ++ "/" ++ r) v)) ∧
    (∀ pd cr t w1 w2 u r,
      get_repo_data pd cr t w1 u r = get_repo_data pd cr t w2 u r) := by
  refine ⟨fun pd data t1 t2 w u r => ⟨rfl, rfl⟩, fun pd t w u r => rfl,
    fun pd c v w u r => rfl, ?_⟩
  intro pd cr t w1 w2 u r
  cases cr with
  | hit data => rfl
  | missOrFail c =>
    cases h : fetch_remote_repo_data t <;> simp [get_repo_data, h]

/-! ## Claim C1 -/

/-- Claim C1: for a RegistrySourced input whose registry fetch succeeds, the
merged license, documentation URL, repository URL and description follow a
left-biased coalesce with the registry first: the registry value wins when
present, and the override fills only an absence. -/
theorem claim_C1 (fetch : String → Except String Crate) (input : CratesIoInputCrateInfo)
    (nm : String) (data : Crate) (hn : input.name = some nm)
    (hf : fetch nm = Except.ok data) :
    ((from_crates_io fetch input).krate.isSome = true) ∧
    (∀ v, data.license = some v →
      (from_crates_io fetch input).krate.map Crate.license = some (some v)) ∧
    (data.license = none → ∀ w, input.license = some w →
      (from_crates_io fetch input).krate.map Crate.license = some (some w)) ∧
    (∀ v, data.documentation = some v →
      (from_crates_io fetch input).krate.map Crate.documentation = some (some v)) ∧
    (data.documentation = none → ∀ w, input.documentation = some w →
      (from_crates_io fetch input).krate.map Crate.documentation = some (some w)) ∧
    (∀ v, data.repository = some v →
      (from_crates_io fetch input).krate.map Crate.repository = some (some v)) ∧
    (data.repository = none → ∀ u, input.repository = some u →
      (from_crates_io fetch input).krate.map Crate.repository
        = some (some (Url.toStr u))) ∧
    (∀ v, data.description = some v →
      (from_crates_io fetch input).krate.map Crate.description = some (some v)) ∧
    (data.description = none → ∀ w, input.description = some w →
      (from_crates_io fetch input).krate.map Crate.description = some (some w)) := by
  refine ⟨?_, ?_, ?_, ?_, ?_, ?_, ?_, ?_, ?_⟩ <;>
    simp only [from_crates_io, hn, hf]
  · simp
  · intro v hv
    simp [hv, Option.or, apply_ite Crate.license]
  · intro hv w hw
    simp [hv, hw, Option.or, apply_ite Crate.license]
  · intro v hv
    simp [hv, Option.or, apply_ite Crate.documentation]
  · intro hv w hw
    simp [hv, hw, Option.or, apply_ite Crate.documentation]
  · intro v hv
    simp [hv, Option.or, apply_ite Crate.repository]
  · intro hv u hu
    simp [hv, hu, Option.or, apply_ite Crate.repository]
  · intro v hv
    simp [hv, Option.or, apply_ite Crate.description]
  · intro hv w hw
    simp [hv, hw, Option.or, apply_ite Crate.description]

/-- A registry record with a license, as returned by the witness fetcher. -/
def crateMIT : Crate := { sampleCrate with license := some "MIT" }

/-- A witness registry fetcher: knows only the package "foo". -/
def fetch1 : String → Except String Crate :=
  fun nm => if nm = "foo" then Except.ok crateMIT else Except.error "not found"

/-- A witness input with overrides for license (ignored: registry has one),
repository (used: registry lacks one) and description (used). -/
def input1 : CratesIoInputCrateInfo :=
  { name := some "foo"
    topics := []
    documentation := none
    repository := some ⟨"https://example.com/x", some "example.com", ['/', 'x']⟩
    license := some "Apache-2.0"
    description := some "override desc" }

/-- Claim C1 witness: on the concrete input, the registry license wins over
the override, while the repository and description overrides fill the
registry's absences. -/
theorem claim_C1_witness :
    (from_crates_io fetch1 input1).krate.map Crate.license = some (some "MIT") ∧
    (from_crates_io fetch1 input1).krate.map Crate.repository
      = some (some "https://example.com/x") ∧
    (from_crates_io fetch1 input1).krate.map Crate.description
      = some (some "override desc") :=
  ⟨(claim_C1 fetch1 input1 "foo" crateMIT rfl rfl).2.1 "MIT" rfl,
   (claim_C1 fetch1 input1 "foo" crateMIT rfl rfl).2.2.2.2.2.2.1 rfl
     ⟨"https://example.com/x", some "example.com", ['/', 'x']⟩ rfl,
   (claim_C1 fetch1 input1 "foo" crateMIT rfl rfl).2.2.2.2.2.2.2.2 rfl "override desc" rfl⟩

/-! ## Claim C8 -/

/-- Claim C8: on a successful registry fetch the merged documentation URL is
never absent — if it is still absent after the override step, it is
synthesized from the fixed docs.rs template applied to the registry package
name. -/
theorem claim_C8 (fetch : String → Except String Crate) (input : CratesIoInputCrateInfo)
    (nm : String) (data : Crate) (hn : input.name = some nm)
    (hf : fetch nm = Except.ok data) :
    ((from_crates_io fetch input).krate.map fun d => d.documentation.isSome)
      = some true ∧
    (data.documentation = none → input.documentation = none →
      (from_crates_io fetch input).krate.map Crate.documentation
        = some (some ("https://docs.rs/crate/" ++ data.name))) := by
  constructor
  · simp only [from_crates_io, hn, hf]
    cases hd : data.documentation with
    | none =>
      cases hi : input.documentation with
      | none => simp [hd, hi, Option.or]
      | some w => simp [hd, hi, Option.or]
    | some v => simp [hd, Option.or]
  · intro hd hi
    simp only [from_crates_io, hn, hf]
    simp [hd, hi, Option.or]

/-- A registry record without documentation, for the C8 witness. -/
def crateNoDoc : Crate := { sampleCrate with name := "bar" }

/-- A witness registry fetcher knowing only "bar". -/
def fetch8 : String → Except String Crate :=
  fun nm => if nm = "bar" then Except.ok crateNoDoc else Except.error "not found"

/-- A witness input with no documentation override. -/
def input8 : CratesIoInputCrateInfo :=
  { name := some "bar"
    topics := []
    documentation := none
    repository := none
    license := none
    description := none }

/-- Claim C8 witness: with documentation absent on both sides, the merged
documentation URL is the docs.rs template applied to "bar". -/
theorem claim_C8_witness :
    (from_crates_io fetch8 input8).krate.map Crate.documentation
      = some (some "https://docs.rs/crate/bar") :=
  (claim_C8 fetch8 input8 "bar" crateNoDoc rfl rfl).2 rfl rfl

/-! ## Claim C5 -/

/-- Claim C5: with the recognized host, the path is split on both
delimiters, the owner is the second segment and the repo the third (a
trailing ".git" is stripped); fewer than two segments after the leading
empty segment is a hard validation error; any other host is never routed to
the repo fetcher — the entry is returned unchanged (repo metadata stays
absent) with no error, independently of the fetcher. -/
theorem claim_C5 :
    (∀ raw owner repo, (∀ c ∈ owner, c ∉ ['/', '.']) → (∀ c ∈ repo, c ∉ ['/', '.']) →
      resolveRepo ⟨raw, some "github.com", '/' :: (owner ++ '/' :: (repo ++ ['.', 'g', 'i', 't']))⟩
        = Except.ok (some (owner, repo)) ∧
      resolveRepo ⟨raw, some "github.com", '/' :: (owner ++ '/' :: repo)⟩
        = Except.ok (some (owner, repo))) ∧
    (∀ u : Url, u.host = some "github.com" →
      (splitDelim ['/', '.'] u.path).length < 3 → resolveRepo u = Except.error ()) ∧
    (∀ u : Url, u.host ≠ some "github.com" → resolveRepo u = Except.ok none) ∧
    (∀ parse fetchRepo1 fetchRepo2 (gen : GeneratedCrateInfo) r u,
      (gen.krate.bind fun k => k.repository) = some r → parse r = some u →
      u.host ≠ some "github.com" →
      attachRepo parse fetchRepo1 gen = Except.ok gen ∧
      attachRepo parse fetchRepo1 gen = attachRepo parse fetchRepo2 gen) := by
  refine ⟨?_, ?_, ?_, ?_⟩
  · intro raw owner repo ho hr
    constructor
    · simp [resolveRepo, split_git owner repo ho hr, List.getD]
    · simp [resolveRepo, split_nogit owner repo ho hr, List.getD]
  · intro u hh hlen
    unfold resolveRepo
    rw [if_pos hh, if_neg (by omega)]
  · intro u hh
    unfold resolveRepo
    rw [if_neg hh]
  · intro parse fetchRepo1 fetchRepo2 gen r u hrep hp hh
    have h3 : resolveRepo u = Except.ok none := by
      unfold resolveRepo
      rw [if_neg hh]
    constructor <;> simp [attachRepo, hrep, hp, h3]

/-- A witness URL parser recognizing the one gitlab URL used below. -/
def parse0 : String → Option Url :=
  fun s => if s = "https://gitlab.com/o/r"
    then some ⟨s, some "gitlab.com", ['/', 'o', '/', 'r']⟩ else none

/-- A witness repo fetcher (never reached in the witness). -/
def fetchRepo0 : List Char → List Char → Except String RepoData :=
  fun _ _ => Except.error "no network"

/-- A witness merged entry whose repository URL points at gitlab.com. -/
def gen0 : GeneratedCrateInfo :=
  ⟨[], none, some { sampleCrate with repository := some "https://gitlab.com/o/r" }, none⟩

/-- Claim C5 witness: concrete github ".git" resolution, a too-short github
path failing, a gitlab URL resolving to no fetch, and the gitlab entry
passing through `attachRepo` unchanged. -/
theorem claim_C5_witness :
    resolveRepo ⟨"https://github.com/o/r.git", some "github.com",
        ['/', 'o', '/', 'r', '.', 'g', 'i', 't']⟩ = Except.ok (some (['o'], ['r'])) ∧
    resolveRepo ⟨"https://github.com/", some "github.com", ['/']⟩ = Except.error () ∧
    resolveRepo ⟨"https://gitlab.com/o/r", some "gitlab.com", ['/', 'o', '/', 'r']⟩
      = Except.ok none ∧
    attachRepo parse0 fetchRepo0 gen0 = Except.ok gen0 :=
  ⟨(claim_C5.1 "https://github.com/o/r.git" ['o'] ['r'] (by decide) (by decide)).1,
   claim_C5.2.1 ⟨"https://github.com/", some "github.com", ['/']⟩ rfl (by decide),
   claim_C5.2.2.1 ⟨"https://gitlab.com/o/r", some "gitlab.com", ['/', 'o', '/', 'r']⟩
     (by decide),
   (claim_C5.2.2.2 parse0 fetchRepo0 fetchRepo0 gen0 "https://gitlab.com/o/r"
     ⟨"https://gitlab.com/o/r", some "gitlab.com", ['/', 'o', '/', 'r']⟩ rfl
     (by decide) (by decide)).1⟩

/-! ## Claim C2 -/

/-- Claim C2 (amended): `last_activity` is the later of the package-metadata
last-updated timestamp and the repo-metadata last-push timestamp (each
absent with its entity); the score is the floored product computed in
binary32 — this equals the exact `floor(coefficient * recent_downloads)`
when the coefficient is 1.0 (inactivity at most 180 days, score = n) or 0.5
(at most 365 days, score = n / 2) and `recent_downloads < 2 ^ 24`; the
0.1-coefficient path and larger counts follow binary32 rounding and can
deviate from the exact formula (see the counterexample). -/
theorem claim_C2 (now : Int) (e : GeneratedCrateInfo) (k : Crate) (n : Nat)
    (hk : e.krate = some k) (hd : k.recent_downloads = some n) (hn : n < 2 ^ 24) :
    (last_activity e = some (match e.repo with
      | none => k.updated_at
      | some r => max k.updated_at r.last_commit)) ∧
    (∀ t, last_activity e = some t →
      (Int.tdiv (now - t) 86400 ≤ 180 → (update_score now e).score = some n) ∧
      (180 < Int.tdiv (now - t) 86400 → Int.tdiv (now - t) 86400 ≤ 365 →
        (update_score now e).score = some (n / 2))) := by
  have hn16 : n < 16777216 := by
    have h16 : (2 : Nat) ^ 24 = 16777216 := by norm_num
    omega
  constructor
  · unfold last_activity
    rw [hk]
    cases hr : e.repo with
    | none => simp
    | some r =>
      by_cases hlt : k.updated_at < r.last_commit
      · simp [hlt, max_eq_right (le_of_lt hlt)]
      · simp [hlt, max_eq_left (not_lt.mp hlt)]
  · intro t ht
    have hscore : (update_score now e).score
        = some (min (dyRound32 ((coefficientFor now (last_activity e)).mul
            (dyRound32 ⟨(n : Int), 0⟩))).floorVal.toNat (2 ^ 64 - 1)) := by
      simp [update_score, hk, hd]
    constructor
    · intro hday
      have hc : coefficientFor now (last_activity e) = ⟨1, 0⟩ := by
        rw [ht]
        simp [coefficientFor, hday]
      rw [hscore, hc]
      rcases Nat.eq_zero_or_pos n with h0 | hpos
      · subst h0
        simp [dyRound32, Dy.mul, Dy.floorVal]
      · have hex : dyRound32 ⟨(n : Int), 0⟩ = ⟨(n : Int), 0⟩ :=
          dyRound32_exact _ _ (by exact_mod_cast hpos) (by exact_mod_cast hn)
        rw [hex]
        have hmul : Dy.mul ⟨1, 0⟩ ⟨(n : Int), 0⟩ = ⟨(n : Int), 0⟩ := by
          simp [Dy.mul]
        rw [hmul, hex]
        simp [Dy.floorVal]
        omega
    · intro hd1 hd2
      have hc : coefficientFor now (last_activity e) = ⟨1, -1⟩ := by
        rw [ht]
        simp only [coefficientFor]
        rw [if_neg (by omega), if_pos hd2]
      rw [hscore, hc]
      rcases Nat.eq_zero_or_pos n with h0 | hpos
      · subst h0
        simp [dyRound32, Dy.mul, Dy.floorVal]
      · have hex : dyRound32 ⟨(n : Int), 0⟩ = ⟨(n : Int), 0⟩ :=
          dyRound32_exact _ _ (by exact_mod_cast hpos) (by exact_mod_cast hn)
        rw [hex]
        have hmul : Dy.mul ⟨1, -1⟩ ⟨(n : Int), 0⟩ = ⟨(n : Int), -1⟩ := by
          simp [Dy.mul]
        rw [hmul]
        have hex2 : dyRound32 ⟨(n : Int), -1⟩ = ⟨(n : Int), -1⟩ :=
          dyRound32_exact _ _ (by exact_mod_cast hpos) (by exact_mod_cast hn)
        rw [hex2]
        have hfl : Dy.floorVal ⟨(n : Int), -1⟩ = ((n / 2 : Nat) : Int) := by
          simp only [Dy.floorVal]
          norm_num
          rw [Int.fdiv_eq_ediv _ (by norm_num)]
        rw [hfl]
        simp
        omega

/-- A package record with 134217728 recent downloads, last updated at the
epoch. -/
def crateBig : Crate := { sampleCrate with recent_downloads := some 134217728, updated_at := 0 }

/-- The merged entry carrying `crateBig` and no repo metadata. -/
def entryBig : GeneratedCrateInfo := ⟨[], none, some crateBig, none⟩

/-- Claim C2 counterexample: 400 days after the last activity (coefficient
0.1), the code's binary32 arithmetic scores 134217728 recent downloads as
13421773, while the claimed exact formula gives
floor(0.1 * 134217728) = 13421772. -/
theorem claim_C2_counterexample :
    (update_score 34560000 entryBig).score = some 13421773 ∧
    ¬ (update_score 34560000 entryBig).score = some (134217728 / 10) := by
  constructor <;> decide

/-- A package record with 10 recent downloads, last updated at the epoch. -/
def crateTen : Crate := { sampleCrate with recent_downloads := some 10, updated_at := 0 }

/-- The merged entry carrying `crateTen` and no repo metadata. -/
def entryTen : GeneratedCrateInfo := ⟨[], none, some crateTen, none⟩

/-- Claim C2 witness: 10 recent downloads score 10 when activity is fresh
(coefficient 1.0) and 5 at 300 days of inactivity (coefficient 0.5). -/
theorem claim_C2_witness :
    (update_score 0 entryTen).score = some 10 ∧
    (update_score 25920000 entryTen).score = some 5 :=
  ⟨((claim_C2 0 entryTen crateTen 10 rfl rfl (by norm_num)).2 0 (by decide)).1 (by decide),
   ((claim_C2 25920000 entryTen crateTen 10 rfl rfl (by norm_num)).2 0
     (by decide)).2 (by decide) (by decide)⟩

/-! ## Claim C10 -/

/-- Claim C10: every entry in the driver's final output has a populated
score — `update_score` assigns `Some` on every path and the driver applies
it to every generated entry, both user-declared and category-discovered,
before appending it to the output list. -/
theorem claim_C10 (fetchCrate : String → Except String Crate)
    (parse : String → Option Url)
    (fetchRepo : List Char → List Char → Except String RepoData)
    (lutc : Int → Int) (now : Int)
    (inputs : List InputCrateInfo) (catData : List (CrateRow × List String))
    (gens : List GeneratedCrateInfo)
    (h : runMain fetchCrate parse fetchRepo lutc now inputs catData = Except.ok gens) :
    ∀ g ∈ gens, g.score.isSome = true := by
  intro g hg
  unfold runMain at h
  simp only [] at h
  cases hpa : processAll (processCrate fetchCrate parse fetchRepo now)
      ((inputs.partition fun i => isCategory i).2) with
  | error e => rw [hpa] at h; exact absurd h (by simp)
  | ok userGens =>
    rw [hpa] at h
    simp only [Except.ok.injEq] at h
    subst h
    rcases List.mem_append.mp hg with hu | hc
    · obtain ⟨a, ha⟩ := processAll_mem _ _ _ hpa g hu
      unfold processCrate at ha
      cases htf : tryFrom fetchCrate a with
      | none => rw [htf] at ha; exact absurd ha (by simp)
      | some gen =>
        simp only [htf] at ha
        cases har : attachRepo parse fetchRepo gen with
        | error e2 => simp only [har] at ha; exact absurd ha (by simp)
        | ok gen2 =>
          simp only [har, Except.ok.injEq] at ha
          rw [← ha]
          exact update_score_isSome now gen2
    · rcases List.mem_map.mp hc with ⟨rc, _, hrc⟩
      rw [← hrc]
      exact update_score_isSome now _

/-- The single generated entry of the C10 witness run. -/
def gen00 : GeneratedCrateInfo := ⟨[], some 0, none, none⟩

/-- Claim C10 witness: a concrete one-entry run produces `gen00`, whose
score is populated. -/
theorem claim_C10_witness : gen00.score.isSome = true :=
  claim_C10 (fun _ => Except.error "offline") (fun _ => none)
    (fun _ _ => Except.error "offline") (fun t => t) 0
    [InputCrateInfo.manual ⟨[], none, none, none⟩] [] [gen00] rfl gen00
    (List.mem_singleton_self gen00)
